import Mathlib

/-!
Verification of the financial-document-analyzer frontend against its
natural-language specification.

The development shallowly embeds the relevant TypeScript modules:

* the job-status poller of `Analysis` (components `Analysis.tsx`, the poll
  effect and the analysis-load effect);
* the API client's `handle` response dispatcher (`lib/api.ts` /
  `authStore.ts` bundle);
* the `documentJobs` localStorage map
  (`readMap` / `writeMap` / `getJobIdForDocument` / `setJobIdForDocument` /
  `removeJobIdForDocument`);
* `DocumentHistory` (`formatBytes`, `handleDelete`);
* the zustand auth store (`hydrate` / `register` / `login` / `refreshMe` /
  `logout`).

Modelling conventions:

* JavaScript numbers are modelled by exact rationals `ℚ` (plus an explicit
  `JsNumber` wrapper with `nan` / infinities where `Number.isFinite`
  matters); `Math.round x` is `⌊x + 1/2⌋`, its exact-real semantics.
* JavaScript strings are `String`; string truthiness (`if (s)`) is the
  test `s ≠ ""`; `null`/`undefined`-able values are `Option`.
* JSON values are the inductive `Json` (numbers restricted to integers —
  no claim depends on decimal formatting); a response body is `empty`,
  `valid j`, or `invalid` according to the outcome of `JSON.parse`.
* JavaScript objects are modelled by their own enumerable properties as
  ordered association lists (the prototype chain is not modelled).
-/

/-- `Math.round` in exact arithmetic: round half towards `+∞`. -/
def jsRound (q : ℚ) : ℤ := (q + 1/2).floor

/-- `jsRound` agrees with the mathematical floor of `q + 1/2`. -/
theorem jsRound_eq_floor (q : ℚ) : jsRound q = ⌊q + 1/2⌋ := rfl

/-- A JavaScript number: NaN, the two infinities, or a finite value
(modelled exactly as a rational). -/
inductive JsNumber where
  | nan
  | posInf
  | negInf
  | finite (q : ℚ)
deriving Repr, DecidableEq

/-- JSON values as produced by `JSON.parse`.  Numbers are modelled as
integers: no claim in this development depends on the decimal formatting
of non-integer numbers. -/
inductive Json where
  | jnull
  | jbool (b : Bool)
  | jnum (n : ℤ)
  | jstr (s : String)
  | jarr (elems : List Json)
  | jobj (fields : List (String × Json))

/-- JavaScript truthiness of a JSON value: `null`, `false`, `0` and `""`
are falsy; every object or array is truthy. -/
def Json.truthy : Json → Bool
  | .jnull => false
  | .jbool b => b
  | .jnum n => n ≠ 0
  | .jstr s => s ≠ ""
  | .jarr _ => true
  | .jobj _ => true

/-- Property access `j.name` on a parsed JSON value: own properties of an
object, `undefined` (= `none`) otherwise. -/
def Json.getField : Json → String → Option Json
  | .jobj fields, name => (fields.find? (fun p => p.1 = name)).map (·.2)
  | _, _ => none

namespace Poller

/-- The job snapshot returned by `apiGetJob` (`JobMeta` in `lib/types.ts`);
only the fields the poller reads are listed. -/
structure JobMeta where
  status : String
  progress : Option ℚ
  analysis_id : Option String
deriving Repr, DecidableEq

/-- The progress percentage stored by `setProgress` in `Analysis.poll`:
`const raw = meta.progress ?? 0;
 const pct = raw <= 1 ? Math.round(raw * 100) : Math.round(raw);
 setProgress(Math.max(0, Math.min(100, pct)));` -/
def displayedProgress (progress : Option ℚ) : ℤ :=
  let raw := progress.getD 0
  let pct := if raw ≤ 1 then jsRound (raw * 100) else jsRound raw
  max 0 (min 100 pct)

/-- Outcome of one `apiGetJob` call inside `poll`: either a snapshot, or
the `fetch`/`handle` promise rejected (the `catch` branch). -/
inductive PollOutcome where
  | ok (meta : JobMeta)
  | fetchError (msg : String)
deriving Repr, DecidableEq

/-- Whether (and with which delay, in milliseconds) `poll` schedules the
next poll after the given outcome.  From `Analysis.poll`: on
`completed` it returns, on `failed` it returns, otherwise
`setTimeout(poll, 1500)`; the `catch` branch only shows a toast and
schedules nothing. -/
def pollReschedule : PollOutcome → Option ℕ
  | .ok meta =>
      if meta.status = "completed" then none
      else if meta.status = "failed" then none
      else some 1500
  | .fetchError _ => none

/-- A poll outcome carrying a terminal (`completed`/`failed`) status. -/
def isTerminalOutcome : PollOutcome → Bool
  | .ok meta => meta.status = "completed" || meta.status = "failed"
  | .fetchError _ => false

/-- The outcomes actually consumed by the polling loop when the successive
`apiGetJob` calls would produce `outcomes`: polling continues exactly
while `pollReschedule` fires. -/
def pollRun : List PollOutcome → List PollOutcome
  | [] => []
  | o :: rest => o :: (if (pollReschedule o).isSome then pollRun rest else [])

/-- Update of the `analysisId` state performed by `poll` on a snapshot:
only on `status === "completed"` and only when `meta.analysis_id` is
truthy is `setAnalysisId(aId)` called. -/
def analysisIdAfterPoll (meta : JobMeta) (prev : String) : String :=
  if meta.status = "completed" then
    match meta.analysis_id with
    | some aId => if aId ≠ "" then aId else prev
    | none => prev
  else prev

/-- The request issued by the analysis-load effect: with a non-empty
`analysisId` and a present token it calls `apiGetAnalysis(id, token)`,
otherwise nothing (`if (!analysisId || !token) return`). -/
def analysisFetch (analysisId : String) (token : Option String) :
    Option (String × String) :=
  if analysisId = "" then none
  else
    match token with
    | none => none
    | some t => if t = "" then none else some (analysisId, t)

/-- The analysis record (`Analysis` in `lib/types.ts`); only the fields
the component reads. -/
structure AnalysisResult where
  summary : String
deriving Repr, DecidableEq

/-- What the result card renders: `showResult = jobStatus === "completed"
&& analysis`, and then the `Streamdown` child is `analysis.summary`. -/
def renderedSummary (jobStatus : String) (analysis : Option AnalysisResult) :
    Option String :=
  if jobStatus = "completed" then analysis.map (·.summary) else none

end Poller

/-! ### Generic facts about `jsRound` and the clamp -/

/-- Unfolding of `displayedProgress` on a present progress value. -/
theorem displayedProgress_some (p : ℚ) :
    Poller.displayedProgress (some p) =
      max 0 (min 100 (if p ≤ 1 then jsRound (p * 100) else jsRound p)) := rfl

/-- `jsRound` is monotone. -/
theorem jsRound_mono {p q : ℚ} (h : p ≤ q) : jsRound p ≤ jsRound q := by
  rw [jsRound_eq_floor, jsRound_eq_floor]
  exact Int.floor_le_floor (by linarith)

/-- Upper bound for `jsRound` from a strict rational bound. -/
theorem jsRound_le_of_lt {q : ℚ} {z : ℤ} (h : q + 1/2 < (z : ℚ) + 1) :
    jsRound q ≤ z := by
  rw [jsRound_eq_floor]
  have hlt : ⌊q + 1/2⌋ < z + 1 := Int.floor_lt.mpr (by push_cast; linarith)
  omega

/-- Lower bound for `jsRound`. -/
theorem le_jsRound_of_le {z : ℤ} {q : ℚ} (h : (z : ℚ) ≤ q + 1/2) :
    z ≤ jsRound q := by
  rw [jsRound_eq_floor]
  exact Int.le_floor.mpr h

/-- The clamp `Math.max(0, Math.min(100, ·))` is the identity on `[0, 100]`. -/
theorem clamp_eq_self {x : ℤ} (h0 : 0 ≤ x) (h1 : x ≤ 100) :
    max 0 (min 100 x) = x := by
  rw [min_eq_right h1, max_eq_right h0]

/-- The clamp is monotone. -/
theorem clamp_mono {x y : ℤ} (h : x ≤ y) :
    max 0 (min 100 x) ≤ max 0 (min 100 y) :=
  max_le_max le_rfl (min_le_min le_rfl h)

/-! ### C1 — progress normalization -/

/-- C1, counterexample: the claim states that a raw progress value `p > 1`
is displayed as `Math.round(p)`, so `150` should display as `150`; the
code clamps the percentage to at most `100`, so `150` displays as `100`. -/
theorem displayedProgress_clamps_at_150 :
    Poller.displayedProgress (some 150) = 100 ∧ jsRound 150 = 150 ∧
      (100 : ℤ) ≠ 150 := by
  refine ⟨by with_unfolding_all rfl, by with_unfolding_all rfl, by decide⟩

/-- C1, amended: the poller normalizes `meta.progress ?? 0` exactly as the
spec's contract states on the range where the clamp is inactive — a value
`p ∈ [0, 1]` displays as `Math.round(p * 100)` and a value `p ∈ (1, 100]`
displays as `Math.round(p)` — while in general the result is additionally
clamped into `[0, 100]`, and a missing progress field displays as `0`. -/
theorem displayedProgress_normalization (p : ℚ) :
    (0 ≤ p → p ≤ 1 → Poller.displayedProgress (some p) = jsRound (p * 100)) ∧
    (1 < p → p ≤ 100 → Poller.displayedProgress (some p) = jsRound p) ∧
    Poller.displayedProgress none = 0 ∧
    0 ≤ Poller.displayedProgress (some p) ∧
    Poller.displayedProgress (some p) ≤ 100 := by
  refine ⟨?_, ?_, by with_unfolding_all rfl, ?_, ?_⟩
  · intro h0 h1
    rw [displayedProgress_some, if_pos h1]
    refine clamp_eq_self (le_jsRound_of_le (by push_cast; linarith)) ?_
    exact jsRound_le_of_lt (by push_cast; linarith)
  · intro h1 h100
    rw [displayedProgress_some, if_neg (not_le.mpr h1)]
    refine clamp_eq_self (le_jsRound_of_le (by push_cast; linarith)) ?_
    exact jsRound_le_of_lt (by push_cast; linarith)
  · rw [displayedProgress_some]; exact le_max_left 0 _
  · rw [displayedProgress_some]
    exact max_le (by decide) (min_le_left 100 _)

/-- C1 witness: the amended theorem applied at `p = 1/2` (displays `50`)
and the bounds at that input. -/
theorem displayedProgress_normalization_witness :
    Poller.displayedProgress (some (1/2)) = jsRound ((1/2 : ℚ) * 100) ∧
      jsRound ((1/2 : ℚ) * 100) = 50 :=
  ⟨(displayedProgress_normalization (1/2)).1
      (by norm_num) (by norm_num),
    by with_unfolding_all rfl⟩

/-! ### C2 — polling loop scheduling -/

/-- `pollReschedule` never returns a delay other than 1500 ms. -/
theorem pollReschedule_eq_some_1500 {o : Poller.PollOutcome}
    (h : (Poller.pollReschedule o).isSome) :
    Poller.pollReschedule o = some 1500 := by
  rcases o with m | s
  · by_cases hc : m.status = "completed"
    · simp [Poller.pollReschedule, hc] at h
    · by_cases hf : m.status = "failed"
      · simp [Poller.pollReschedule, hc, hf] at h
      · simp [Poller.pollReschedule, hc, hf]
  · simp [Poller.pollReschedule] at h

/-- Every outcome consumed by the polling loop other than the final one
caused a reschedule (with the fixed 1500 ms delay). -/
theorem pollRun_dropLast_reschedules
    {os : List Poller.PollOutcome} {o : Poller.PollOutcome}
    (h : o ∈ (Poller.pollRun os).dropLast) :
    Poller.pollReschedule o = some 1500 := by
  induction os with
  | nil => simp [Poller.pollRun] at h
  | cons hd tl ih =>
    rw [Poller.pollRun] at h
    by_cases hs : (Poller.pollReschedule hd).isSome
    · rw [if_pos hs] at h
      rcases htl : Poller.pollRun tl with _ | ⟨x, xs⟩
      · rw [htl] at h; simp at h
      · rw [htl] at h
        rw [List.dropLast_cons₂] at h
        rcases List.mem_cons.mp h with rfl | hmem
        · exact pollReschedule_eq_some_1500 hs
        · exact ih (htl ▸ hmem)
    · rw [if_neg hs] at h
      simp at h

/-- C2, counterexample: the claim asserts the loop keeps polling until a
terminal status for every sequence of outcomes, including polls ending in
a fetch error; but after a rejected `apiGetJob` call the `catch` branch
only shows a toast — no further poll is ever scheduled, although no
terminal status was observed. -/
theorem poll_stops_on_fetch_error :
    Poller.pollReschedule
        (Poller.PollOutcome.fetchError "Failed to fetch job status") = none ∧
      Poller.isTerminalOutcome
        (Poller.PollOutcome.fetchError "Failed to fetch job status") = false :=
  ⟨rfl, rfl⟩

/-- C2, amended: after a successful poll whose status is neither
`completed` nor `failed` the next poll is scheduled 1500 ms later; after
a terminal response **or a poll that ends in a fetch error** no further
poll is scheduled; consequently, along any outcome sequence, every
consumed outcome but the last one was a non-terminal successful
response. -/
theorem poll_scheduling (o : Poller.PollOutcome) :
    (Poller.pollReschedule o = some 1500 ↔
      ∃ m, o = Poller.PollOutcome.ok m ∧
        m.status ≠ "completed" ∧ m.status ≠ "failed") ∧
    (Poller.pollReschedule o = none ↔
      Poller.isTerminalOutcome o = true ∨
        ∃ s, o = Poller.PollOutcome.fetchError s) ∧
    (∀ os : List Poller.PollOutcome,
      o ∈ (Poller.pollRun os).dropLast → Poller.pollReschedule o = some 1500) := by
  refine ⟨?_, ?_, fun os h => pollRun_dropLast_reschedules h⟩
  · rcases o with m | s
    · by_cases hc : m.status = "completed"
      · simp [Poller.pollReschedule, hc]
      · by_cases hf : m.status = "failed"
        · simp [Poller.pollReschedule, hc, hf]
        · simp [Poller.pollReschedule, hc, hf]
    · simp [Poller.pollReschedule]
  · rcases o with m | s
    · by_cases hc : m.status = "completed"
      · simp [Poller.pollReschedule, Poller.isTerminalOutcome, hc]
      · by_cases hf : m.status = "failed"
        · simp [Poller.pollReschedule, Poller.isTerminalOutcome, hc, hf]
        · simp [Poller.pollReschedule, Poller.isTerminalOutcome, hc, hf]
    · simp [Poller.pollReschedule, Poller.isTerminalOutcome]

/-- C2 witness: the amended theorem applied to a concrete `running`
snapshot — the loop reschedules after 1500 ms. -/
theorem poll_scheduling_witness :
    Poller.pollReschedule
        (Poller.PollOutcome.ok ⟨"running", some (1/2), none⟩) = some 1500 :=
  ((poll_scheduling (Poller.PollOutcome.ok ⟨"running", some (1/2), none⟩)).1).mpr
    ⟨⟨"running", some (1/2), none⟩, rfl, by decide, by decide⟩

/-! ### C3 — monotonicity of the displayed progress -/

/-- C3, counterexample: the raw progress values `1` then `6/5` are
non-decreasing (as the server guarantees), yet the displayed percentage
drops from `100` to `1`, because the normalization switches from the
fraction scale to the percent scale across the boundary at `1`. -/
theorem displayedProgress_not_monotone :
    (1 : ℚ) ≤ 6/5 ∧
      Poller.displayedProgress (some (6/5)) < Poller.displayedProgress (some 1) := by
  constructor
  · norm_num
  · have h1 : Poller.displayedProgress (some (6/5)) = 1 := by with_unfolding_all rfl
    have h2 : Poller.displayedProgress (some 1) = 100 := by with_unfolding_all rfl
    rw [h1, h2]; decide

/-- C3, amended: the displayed percentage is monotonically non-decreasing
across consecutive polls provided the raw progress values are
non-decreasing and do not cross the fraction/percent boundary at `1`
(both ≤ 1, or both > 1); across the boundary it can decrease. -/
theorem displayedProgress_mono_same_scale (p q : ℚ) (hpq : p ≤ q)
    (hscale : q ≤ 1 ∨ 1 < p) :
    Poller.displayedProgress (some p) ≤ Poller.displayedProgress (some q) := by
  rw [displayedProgress_some, displayedProgress_some]
  rcases hscale with hq | hp
  · rw [if_pos hq, if_pos (le_trans hpq hq)]
    exact clamp_mono (jsRound_mono (by linarith))
  · rw [if_neg (not_le.mpr hp), if_neg (not_le.mpr (lt_of_lt_of_le hp hpq))]
    exact clamp_mono (jsRound_mono hpq)

/-- C3 witness: the amended theorem applied to the raw values `3/10` and
`1/2` (displayed `30` and `50`). -/
theorem displayedProgress_mono_same_scale_witness :
    Poller.displayedProgress (some (3/10)) ≤ Poller.displayedProgress (some (1/2)) :=
  displayedProgress_mono_same_scale (3/10) (1/2) (by norm_num) (Or.inl (by norm_num))

/-! ### C5 — clamped server progress never displays as 100 -/

/-- C5: if the server reports progress at most `0.95` (as a fraction)
while the job is unfinished, the displayed percentage is at most `95`
and in particular never `100` before `completed` is observed. -/
theorem displayedProgress_le_95 (p : ℚ) (h : p ≤ 19/20) :
    Poller.displayedProgress (some p) ≤ 95 ∧
      Poller.displayedProgress (some p) ≠ 100 := by
  have hle : Poller.displayedProgress (some p) ≤ 95 := by
    rw [displayedProgress_some, if_pos (by linarith)]
    refine max_le (by decide) (le_trans (min_le_right 100 _) ?_)
    exact jsRound_le_of_lt (by push_cast; linarith)
  exact ⟨hle, by omega⟩

/-- C5 witness: the theorem applied at raw progress `19/20` itself
(displayed `95`). -/
theorem displayedProgress_le_95_witness :
    Poller.displayedProgress (some (19/20)) ≤ 95 ∧
      Poller.displayedProgress (some (19/20)) ≠ 100 :=
  displayedProgress_le_95 (19/20) (by norm_num)

/-! ### C4 — fetching the analysis result on completion -/

/-- C4: a `completed` snapshot carrying a non-empty `analysis_id` makes
the client fetch the analysis by exactly that reference (with the auth
token), and the completed view renders its `summary`; a snapshot with any
other status leaves the `analysisId` state unchanged — in particular,
starting from the initial empty `analysisId`, no fetch is issued. -/
theorem completed_fetches_exact_reference (meta : Poller.JobMeta)
    (a t prev : String) :
    (meta.status = "completed" → meta.analysis_id = some a → a ≠ "" → t ≠ "" →
      Poller.analysisFetch (Poller.analysisIdAfterPoll meta "") (some t) =
        some (a, t)) ∧
    (meta.status ≠ "completed" → Poller.analysisIdAfterPoll meta prev = prev) ∧
    (meta.status ≠ "completed" →
      Poller.analysisFetch (Poller.analysisIdAfterPoll meta "") (some t) = none) ∧
    (∀ ar : Poller.AnalysisResult,
      Poller.renderedSummary "completed" (some ar) = some ar.summary) := by
  refine ⟨?_, ?_, ?_, fun ar => rfl⟩
  · intro hst hid ha ht
    rw [Poller.analysisIdAfterPoll, if_pos hst, hid]
    simp only [ha, ite_true, ne_eq, not_false_iff]
    rw [Poller.analysisFetch, if_neg ha]
    rw [if_neg ht]
  · intro hst
    rw [Poller.analysisIdAfterPoll, if_neg hst]
  · intro hst
    rw [Poller.analysisIdAfterPoll, if_neg hst]
    rfl

/-- C4 witness: the theorem applied to a concrete completed snapshot with
`analysis_id = "a1"` and token `"tok"`: the client requests exactly
`("a1", "tok")`. -/
theorem completed_fetches_exact_reference_witness :
    Poller.analysisFetch
        (Poller.analysisIdAfterPoll ⟨"completed", some 1, some "a1"⟩ "")
        (some "tok") = some ("a1", "tok") :=
  (completed_fetches_exact_reference ⟨"completed", some 1, some "a1"⟩
      "a1" "tok" "").1 rfl rfl (by decide) (by decide)

/-! ## The API client response dispatcher (`handle` in `lib/api.ts`) -/

namespace ApiClient

/-- The text body of an HTTP response, classified by what `JSON.parse`
does with it: empty (`text` falsy, so the body is taken as `null`),
valid JSON denoting a value, or invalid (``JSON.parse`` throws). -/
inductive BodyText where
  | empty
  | valid (j : Json)
  | invalid

/-- The fields of a fetch `Response` that `handle` reads. -/
structure Response where
  ok : Bool
  statusText : String
  body : BodyText

/-- Result of `handle`: the parsed body is returned, or an `Error` with
the computed message is thrown, or the `SyntaxError` of `JSON.parse`
propagates. -/
inductive HandleResult where
  | ok (data : Json)
  | err (message : String)
  | parseFailure

/-- Whether `handle` rejects (any thrown exception). -/
def HandleResult.isThrow : HandleResult → Bool
  | .ok _ => false
  | .err _ => true
  | .parseFailure => true

/-- `const data = text ? JSON.parse(text) : null`; an empty body yields
the JavaScript `null` (represented as `Json.jnull`), an invalid body
makes `JSON.parse` throw. -/
def parseBody : BodyText → Except Unit Json
  | .empty => .ok .jnull
  | .valid j => .ok j
  | .invalid => .error ()

/-- The detail computed on a non-ok response:
`(data && (data.detail || data.message)) || res.statusText`.
`Sum.inl` is a truthy JSON value from the body, `Sum.inr` the
`statusText` fallback. -/
def detailValue (data : Json) (statusText : String) : Json ⊕ String :=
  if data.truthy then
    match
      (match data.getField "detail" with
       | some d => if d.truthy then some d else data.getField "message"
       | none => data.getField "message") with
    | some v => if v.truthy then Sum.inl v else Sum.inr statusText
    | none => Sum.inr statusText
  else Sum.inr statusText

/-- JSON string escaping for the characters relevant here. -/
def escapeChar (c : Char) : String :=
  if c = '"' then "\\\"" else if c = '\\' then "\\\\" else String.singleton c

/-- Escape a string as `JSON.stringify` does. -/
def escapeString (s : String) : String :=
  String.join (s.toList.map escapeChar)

mutual

/-- `JSON.stringify` on a JSON value. -/
def stringifyJson : Json → String
  | .jnull => "null"
  | .jbool true => "true"
  | .jbool false => "false"
  | .jnum n => toString n
  | .jstr s => "\"" ++ escapeString s ++ "\""
  | .jarr xs => "[" ++ stringifyElems xs ++ "]"
  | .jobj fs => "\x7b" ++ stringifyFields fs ++ "\x7d"

/-- `JSON.stringify` of the elements of an array, comma-separated. -/
def stringifyElems : List Json → String
  | [] => ""
  | [x] => stringifyJson x
  | x :: y :: xs => stringifyJson x ++ "," ++ stringifyElems (y :: xs)

/-- `JSON.stringify` of the fields of an object, comma-separated. -/
def stringifyFields : List (String × Json) → String
  | [] => ""
  | [(k, v)] => "\"" ++ escapeString k ++ "\":" ++ stringifyJson v
  | (k, v) :: f :: fs =>
      "\"" ++ escapeString k ++ "\":" ++ stringifyJson v ++ "," ++
        stringifyFields (f :: fs)

end

/-- The message of the thrown `Error`:
`typeof detail === "string" ? detail : JSON.stringify(detail)`. -/
def errMessage (data : Json) (statusText : String) : String :=
  match detailValue data statusText with
  | .inl (.jstr s) => s
  | .inl j => stringifyJson j
  | .inr s => s

/-- The `handle` dispatcher of the API client:
parse the body text, then throw `Error(detail)` when `!res.ok`, else
return the parsed body. -/
def handle (res : Response) : HandleResult :=
  match parseBody res.body with
  | .error _ => .parseFailure
  | .ok data => if res.ok then .ok data else .err (errMessage data res.statusText)

end ApiClient

/-! ## `lib/documentJobs.ts` — the document → job localStorage map -/

namespace DocumentJobs

/-- The raw contents of `window.localStorage["documents.jobMap"]`,
classified by what `readMap` does with them: the key may be absent
(`getItem` returns `null`), hold the empty string (falsy, `!raw`), hold a
string `JSON.parse` rejects, or hold a string parsing to a JSON value. -/
inductive StoredRaw where
  | absent
  | emptyStr
  | invalid
  | valid (j : Json)

/-- `Object.entries`: own enumerable string-keyed entries — the fields of
an object, the indexed elements of an array. -/
def jsEntries : Json → List (String × Json)
  | .jobj fields => fields
  | .jarr elems => elems.enum.map (fun p => (toString p.1, p.2))
  | _ => []

/-- The test `parsed && typeof parsed === "object"`: a truthy value of
type "object", i.e. an object or an array (`null` is falsy). -/
def isObjectLike : Json → Bool
  | .jobj _ => true
  | .jarr _ => true
  | _ => false

/-- `readMap`: parse the stored string and keep the entries whose key and
value are both strings; every failure path returns the empty map. -/
def readMap : StoredRaw → List (String × String)
  | .absent => []
  | .emptyStr => []
  | .invalid => []
  | .valid j =>
      if isObjectLike j then
        (jsEntries j).filterMap (fun p =>
          match p.2 with
          | .jstr s => some (p.1, s)
          | _ => none)
      else []

/-- `writeMap`: `localStorage.setItem(STORAGE_KEY, JSON.stringify(map))`;
the stored string parses back to the object with string values. -/
def writeMap (m : List (String × String)) : StoredRaw :=
  .valid (.jobj (m.map (fun p => (p.1, Json.jstr p.2))))

/-- Property read `map[k]` on the plain map object (returning
`undefined` = `none` when the key is absent). -/
def objGet (m : List (String × String)) (k : String) : Option String :=
  (m.find? (fun p => p.1 = k)).map (·.2)

/-- Property write `map[k] = v`: overwrite in place, or append. -/
def objSet (m : List (String × String)) (k v : String) :
    List (String × String) :=
  if m.any (fun p => p.1 = k) then
    m.map (fun p => if p.1 = k then (k, v) else p)
  else m ++ [(k, v)]

/-- `delete map[k]`. -/
def objDelete (m : List (String × String)) (k : String) :
    List (String × String) :=
  m.filter (fun p => p.1 ≠ k)

/-- `getJobIdForDocument`: `readMap()[documentId] ?? null`. -/
def getJobIdForDocument (documentId : String) (storage : StoredRaw) :
    Option String :=
  objGet (readMap storage) documentId

/-- `setJobIdForDocument`: guarded on both arguments being truthy, then
read-modify-write. -/
def setJobIdForDocument (documentId jobId : String) (storage : StoredRaw) :
    StoredRaw :=
  if documentId = "" ∨ jobId = "" then storage
  else writeMap (objSet (readMap storage) documentId jobId)

/-- `removeJobIdForDocument`: guarded on a truthy `documentId`; deletes
and writes back only when `map[documentId]` is truthy. -/
def removeJobIdForDocument (documentId : String) (storage : StoredRaw) :
    StoredRaw :=
  if documentId = "" then storage
  else
    match objGet (readMap storage) documentId with
    | some v => if v ≠ "" then writeMap (objDelete (readMap storage) documentId)
                else storage
    | none => storage

/-- Writing then reading the storage recovers the map. -/
theorem readMap_writeMap (m : List (String × String)) :
    readMap (writeMap m) = m := by
  simp only [readMap, writeMap, isObjectLike, jsEntries, if_pos]
  rw [List.filterMap_map]
  have : ∀ p : String × String,
      (fun p : String × String =>
        (match (p.1, Json.jstr p.2).2 with
          | .jstr s => some ((p.1, Json.jstr p.2).1, s)
          | _ => none)) p = some p := fun p => rfl
  simp only [Function.comp_def]
  induction m with
  | nil => rfl
  | cons hd tl ih => simpa using ih

/-- Updating the entries at key `k` rewrites exactly the value found at
`k`. -/
theorem objGet_map_update_self (m : List (String × String)) (k v : String) :
    objGet (m.map (fun p => if p.1 = k then (k, v) else p)) k =
      (objGet m k).map (fun _ => v) := by
  induction m with
  | nil => rfl
  | cons hd tl ih =>
    by_cases hh : hd.1 = k
    · simp [objGet, List.find?_cons, hh]
    · simpa [objGet, List.find?_cons, hh] using ih

/-- Updating the entries at key `k` does not change lookups at other
keys. -/
theorem objGet_map_update_other (m : List (String × String)) (k v k' : String)
    (hk : k' ≠ k) :
    objGet (m.map (fun p => if p.1 = k then (k, v) else p)) k' =
      objGet m k' := by
  induction m with
  | nil => rfl
  | cons hd tl ih =>
    by_cases hh : hd.1 = k
    · have hne : ¬ (k = k') := fun he => hk he.symm
      simpa [objGet, List.find?_cons, hh, hne] using ih
    · by_cases hh' : hd.1 = k'
      · simp [objGet, List.find?_cons, hh, hh', hk]
      · simpa [objGet, List.find?_cons, hh, hh'] using ih

/-- Lookup after appending a fresh entry. -/
theorem objGet_append (m : List (String × String)) (k v k' : String) :
    objGet (m ++ [(k, v)]) k' =
      ((objGet m k').or (if k = k' then some v else none)) := by
  induction m with
  | nil =>
    by_cases he : k = k' <;> simp [objGet, List.find?_cons, he]
  | cons hd tl ih =>
    by_cases hh' : hd.1 = k'
    · simp [objGet, List.find?_cons, hh']
    · simpa [objGet, List.find?_cons, hh'] using ih

/-- Reading the key just written. -/
theorem objGet_objSet_self (m : List (String × String)) (k v : String) :
    objGet (objSet m k v) k = some v := by
  rw [objSet]
  by_cases h : m.any (fun p => p.1 = k)
  · rw [if_pos h, objGet_map_update_self]
    obtain ⟨p, hp, hpk⟩ := List.any_eq_true.mp h
    rw [objGet]
    rcases hf : m.find? (fun p => p.1 = k) with _ | q
    · exfalso
      have := List.find?_eq_none.mp hf p hp
      simp_all
    · rw [hf]
      rfl
  · rw [if_neg h, objGet_append]
    have hn : m.find? (fun p => p.1 = k) = none := by
      rw [List.find?_eq_none]
      intro p hp
      intro hpk
      exact h (List.any_eq_true.mpr ⟨p, hp, hpk⟩)
    rw [objGet, hn]
    simp

/-- Writing one key does not change the value read at another key. -/
theorem objGet_objSet_other (m : List (String × String)) (k v k' : String)
    (hk : k' ≠ k) : objGet (objSet m k v) k' = objGet m k' := by
  rw [objSet]
  by_cases h : m.any (fun p => p.1 = k)
  · rw [if_pos h, objGet_map_update_other m k v k' hk]
  · rw [if_neg h, objGet_append]
    have hne : ¬ (k = k') := fun he => hk he.symm
    rcases hf : objGet m k' with _ | w <;> simp [hne]

/-- After `delete map[k]`, the key is gone. -/
theorem objGet_objDelete_self (m : List (String × String)) (k : String) :
    objGet (objDelete m k) k = none := by
  rw [objDelete, objGet]
  have hf : List.find? (fun p => p.1 = k) (m.filter (fun p => p.1 ≠ k)) = none := by
    rw [List.find?_eq_none]
    intro p hp
    have := (List.mem_filter.mp hp).2
    simpa using this
  rw [hf]
  rfl

/-- `delete map[k]` does not change lookups at other keys. -/
theorem objGet_objDelete_other (m : List (String × String)) (k k' : String)
    (hk : k' ≠ k) : objGet (objDelete m k) k' = objGet m k' := by
  rw [objDelete]
  induction m with
  | nil => rfl
  | cons hd tl ih =>
    have hne : ¬ (k = k') := fun he => hk he.symm
    by_cases hh : hd.1 = k
    · have hne2 : ¬ hd.1 = k' := by rw [hh]; exact hne
      simpa [objGet, List.find?_cons, List.filter_cons, hh, hne, hne2, hk]
        using ih
    · by_cases hh2 : hd.1 = k'
      · simp [objGet, List.find?_cons, List.filter_cons, hh, hh2, hne, hk]
      · simpa [objGet, List.find?_cons, List.filter_cons, hh, hh2, hne, hk]
          using ih

end DocumentJobs

/-! ### C9 — round-trip of the document → job map -/

/-- C9: for non-empty `documentId` and `jobId`, a `getJobIdForDocument`
immediately after `setJobIdForDocument` returns that `jobId`; immediately
after `removeJobIdForDocument` it returns `null` (provided the value the
store held for `documentId` was not the corrupt empty string, which the
module itself never writes); and both operations leave the mapping of
every other document id unchanged. -/
theorem documentJobs_roundtrip (storage : DocumentJobs.StoredRaw)
    (documentId jobId other : String)
    (hd : documentId ≠ "") (hj : jobId ≠ "") (ho : other ≠ documentId) :
    DocumentJobs.getJobIdForDocument documentId
        (DocumentJobs.setJobIdForDocument documentId jobId storage) = some jobId ∧
    (DocumentJobs.getJobIdForDocument documentId storage ≠ some "" →
      DocumentJobs.getJobIdForDocument documentId
        (DocumentJobs.removeJobIdForDocument documentId storage) = none) ∧
    DocumentJobs.getJobIdForDocument other
        (DocumentJobs.setJobIdForDocument documentId jobId storage) =
      DocumentJobs.getJobIdForDocument other storage ∧
    DocumentJobs.getJobIdForDocument other
        (DocumentJobs.removeJobIdForDocument documentId storage) =
      DocumentJobs.getJobIdForDocument other storage := by
  have hguard : ¬ (documentId = "" ∨ jobId = "") := by
    rintro (h | h)
    exacts [hd h, hj h]
  refine ⟨?_, ?_, ?_, ?_⟩
  · rw [DocumentJobs.setJobIdForDocument, if_neg hguard,
      DocumentJobs.getJobIdForDocument, DocumentJobs.readMap_writeMap,
      DocumentJobs.objGet_objSet_self]
  · intro hne
    rw [DocumentJobs.removeJobIdForDocument, if_neg hd]
    rcases hv : DocumentJobs.objGet (DocumentJobs.readMap storage) documentId
      with _ | v
    · dsimp only
      rw [DocumentJobs.getJobIdForDocument]
      exact hv
    · have hvne : v ≠ "" := by
        intro h
        exact hne (by rw [DocumentJobs.getJobIdForDocument, hv, h])
      dsimp only
      rw [if_pos hvne, DocumentJobs.getJobIdForDocument,
        DocumentJobs.readMap_writeMap, DocumentJobs.objGet_objDelete_self]
  · rw [DocumentJobs.setJobIdForDocument, if_neg hguard,
      DocumentJobs.getJobIdForDocument, DocumentJobs.readMap_writeMap,
      DocumentJobs.objGet_objSet_other _ _ _ _ ho,
      DocumentJobs.getJobIdForDocument]
  · rw [DocumentJobs.removeJobIdForDocument, if_neg hd]
    rcases hv : DocumentJobs.objGet (DocumentJobs.readMap storage) documentId
      with _ | v
    · rfl
    · by_cases hvne : v ≠ ""
      · dsimp only
        rw [if_pos hvne, DocumentJobs.getJobIdForDocument,
          DocumentJobs.readMap_writeMap,
          DocumentJobs.objGet_objDelete_other _ _ _ ho,
          DocumentJobs.getJobIdForDocument]
      · dsimp only
        rw [if_neg hvne]

/-- C9 witness: the theorem applied at a concrete storage holding
`{"doc1": "jobA", "doc2": "jobB"}`: writing `doc1 ↦ jobNew` is read back,
and `doc2` is untouched. -/
theorem documentJobs_roundtrip_witness :
    DocumentJobs.getJobIdForDocument "doc1"
        (DocumentJobs.setJobIdForDocument "doc1" "jobNew"
          (DocumentJobs.writeMap [("doc1", "jobA"), ("doc2", "jobB")])) =
      some "jobNew" ∧
    DocumentJobs.getJobIdForDocument "doc2"
        (DocumentJobs.setJobIdForDocument "doc1" "jobNew"
          (DocumentJobs.writeMap [("doc1", "jobA"), ("doc2", "jobB")])) =
      DocumentJobs.getJobIdForDocument "doc2"
        (DocumentJobs.writeMap [("doc1", "jobA"), ("doc2", "jobB")]) := by
  have h := documentJobs_roundtrip
    (DocumentJobs.writeMap [("doc1", "jobA"), ("doc2", "jobB")])
    "doc1" "jobNew" "doc2" (by decide) (by decide) (by decide)
  exact ⟨h.1, h.2.2.1⟩

/-! ### C7 — the `handle` dispatcher's throw behaviour -/

/-- Whether the body text is the kind `JSON.parse` rejects. -/
def ApiClient.BodyText.isInvalid : ApiClient.BodyText → Bool
  | .invalid => true
  | _ => false

/-- C7, counterexample: an `ok` response whose non-empty body is not valid
JSON makes `handle` throw (the `JSON.parse` `SyntaxError` propagates),
contradicting the claim that `handle` throws exactly when the response is
not ok and otherwise returns without throwing. -/
theorem handle_throws_on_ok_invalid_body :
    (ApiClient.handle
        { ok := true, statusText := "OK",
          body := ApiClient.BodyText.invalid }).isThrow = true ∧
      ({ ok := true, statusText := "OK",
          body := ApiClient.BodyText.invalid } : ApiClient.Response).ok = true :=
  ⟨rfl, rfl⟩

/-- C7, amended: `handle` throws exactly when the response is not ok
**or** the non-empty body fails to parse as JSON; an ok response with an
empty or valid body returns the parsed value (`null` for an empty body)
without throwing; on a not-ok response with a parseable body the thrown
`Error`'s message is the body's truthy `detail` field, else its truthy
`message` field, else the response's status text. -/
theorem handle_spec (res : ApiClient.Response) :
    ((ApiClient.handle res).isThrow =
      (!res.ok || res.body.isInvalid)) ∧
    (res.ok = true → res.body = ApiClient.BodyText.empty →
      ApiClient.handle res = ApiClient.HandleResult.ok Json.jnull) ∧
    (∀ j, res.ok = true → res.body = ApiClient.BodyText.valid j →
      ApiClient.handle res = ApiClient.HandleResult.ok j) ∧
    (∀ j, res.ok = false → res.body = ApiClient.BodyText.valid j →
      ApiClient.handle res =
        ApiClient.HandleResult.err (ApiClient.errMessage j res.statusText)) ∧
    (∀ s st, s ≠ "" →
      ApiClient.errMessage (Json.jobj [("detail", Json.jstr s)]) st = s) ∧
    (∀ s st, s ≠ "" →
      ApiClient.errMessage (Json.jobj [("message", Json.jstr s)]) st = s) ∧
    (∀ st, ApiClient.errMessage Json.jnull st = st) := by
  obtain ⟨ok, statusText, body⟩ := res
  refine ⟨?_, ?_, ?_, ?_, ?_, ?_, ?_⟩
  · rcases body with _ | j | _ <;> rcases ok <;>
      simp [ApiClient.handle, ApiClient.parseBody, ApiClient.HandleResult.isThrow,
        ApiClient.BodyText.isInvalid]
  · rintro hok rfl
    simp only at hok
    simp [ApiClient.handle, ApiClient.parseBody, hok]
  · rintro j hok rfl
    simp only at hok
    simp [ApiClient.handle, ApiClient.parseBody, hok]
  · rintro j hok rfl
    simp only at hok
    simp [ApiClient.handle, ApiClient.parseBody, hok]
  · intro s st hs
    rw [ApiClient.errMessage, ApiClient.detailValue]
    simp [Json.truthy, Json.getField, List.find?_cons, hs]
  · intro s st hs
    rw [ApiClient.errMessage, ApiClient.detailValue]
    simp [Json.truthy, Json.getField, List.find?_cons, hs]
  · intro st
    rw [ApiClient.errMessage, ApiClient.detailValue]
    simp [Json.truthy]

/-- C7 witness: the amended theorem applied to a concrete `400` response
whose body is `{"detail": "Invalid input"}` — `handle` throws an `Error`
with exactly that message. -/
theorem handle_spec_witness :
    ApiClient.handle
        { ok := false, statusText := "Bad Request",
          body := ApiClient.BodyText.valid
            (Json.jobj [("detail", Json.jstr "Invalid input")]) } =
      ApiClient.HandleResult.err "Invalid input" := by
  have h := handle_spec
    { ok := false, statusText := "Bad Request",
      body := ApiClient.BodyText.valid
        (Json.jobj [("detail", Json.jstr "Invalid input")]) }
  rw [h.2.2.2.1 (Json.jobj [("detail", Json.jstr "Invalid input")]) rfl rfl,
    h.2.2.2.2.1 "Invalid input" "Bad Request" (by decide)]

/-! ## `DocumentHistory.tsx` — byte formatting and document deletion -/

/-- Outcome of an awaited API call: the promise resolves with a value or
rejects with an error whose message is `msg`. -/
inductive ApiResult (α : Type) where
  | success (value : α)
  | failure (msg : String)

namespace DocumentHistory

/-- `const units = ["B", "KB", "MB", "GB", "TB"]`. -/
def units : List String := ["B", "KB", "MB", "GB", "TB"]

/-- `Math.min(Math.floor(Math.log(bytes) / Math.log(1024)), units.length - 1)`
in exact real arithmetic: `⌊log bytes / log 1024⌋ = Int.log 1024 bytes`
(the greatest `z` with `1024 ^ z ≤ bytes`, for `bytes > 0`). -/
def unitIndex (bytes : ℚ) : ℤ :=
  min (Int.log 1024 bytes) ((units.length : ℤ) - 1)

/-- The indexing `units[power]` as it is rendered by the template
literal: an out-of-bounds access yields `undefined`, printed as the
string `"undefined"`. -/
def unitsAt (i : ℤ) : String :=
  if 0 ≤ i then units.getD i.toNat "undefined" else "undefined"

/-- Left-pad with zeros to the given width. -/
def padZeros (w : ℕ) (s : String) : String :=
  String.mk (List.replicate (w - s.length) '0') ++ s

/-- `x.toFixed(digits)` in exact arithmetic: the numerator
`n = round(x·10^digits)` (ties towards the larger `n`, as the spec of
`Number.prototype.toFixed` picks), printed with `digits` decimals. -/
def toFixed (digits : ℕ) (x : ℚ) : String :=
  if digits = 0 then toString (jsRound x)
  else
    (if jsRound (x * (10 : ℚ) ^ digits) < 0 then "-" else "") ++
      toString ((jsRound (x * (10 : ℚ) ^ digits)).natAbs / 10 ^ digits) ++ "." ++
      padZeros digits (toString ((jsRound (x * (10 : ℚ) ^ digits)).natAbs % 10 ^ digits))

/-- `formatBytes` from `DocumentHistory.tsx`: `"-"` for non-finite or
negative inputs, `"0 B"` for zero, otherwise
`value.toFixed(value < 10 && power > 0 ? 1 : 0)` followed by
`units[power]`, where `power = unitIndex bytes` and
`value = bytes / 1024 ^ power`. -/
def formatBytes : JsNumber → String
  | .nan => "-"
  | .posInf => "-"
  | .negInf => "-"
  | .finite b =>
      if b < 0 then "-"
      else if b = 0 then "0 B"
      else
        toFixed
          (if b / (1024 : ℚ) ^ unitIndex b < 10 ∧ 0 < unitIndex b then 1 else 0)
          (b / (1024 : ℚ) ^ unitIndex b) ++ " " ++ unitsAt (unitIndex b)

/-- The `DocumentItem` record of `lib/types.ts`. -/
structure DocumentItem where
  _id : String
  filename : String
  path : String
  size : JsNumber
  mime : Option String
  uploadedBy : String
  createdAt : String
  latestJobId : Option String
deriving DecidableEq

/-- The component state `handleDelete` touches: the `documents` list
state, the `deletingId` state, and the localStorage map behind
`removeJobIdForDocument`. -/
structure HistoryState where
  documents : List DocumentItem
  deletingId : Option String
  storage : DocumentJobs.StoredRaw

/-- `DocumentHistory.handleDelete`: bail out without a token or without
confirmation; set `deletingId`; on a successful `apiDeleteDocument`
filter the document out of the list and remove its job mapping; on a
rejected call only toast; finally clear `deletingId`. -/
def handleDelete (doc : DocumentItem) (token : Option String)
    (confirmed : Bool) (deleteRes : ApiResult Unit) (s : HistoryState) :
    HistoryState :=
  match token with
  | none => s
  | some t =>
    if t = "" then s
    else if confirmed = false then s
    else
      let s1 : HistoryState := { s with deletingId := some doc._id }
      match deleteRes with
      | .success _ =>
          let s2 : HistoryState :=
            { s1 with
              documents := s1.documents.filter (fun d => d._id ≠ doc._id),
              storage := DocumentJobs.removeJobIdForDocument doc._id s1.storage }
          { s2 with deletingId := none }
      | .failure _ => { s1 with deletingId := none }

end DocumentHistory

/-! ### C10 — totality and index bounds of `formatBytes` -/

/-- C10, counterexample: for the positive finite input `1/2` the computed
unit index is `-1`, not clamped into the bounds of the `units` array: the
rendered string is `"512 undefined"`, whose unit is none of B/KB/MB/GB/TB. -/
theorem formatBytes_small_fraction_out_of_bounds :
    DocumentHistory.unitIndex (1/2) = -1 ∧
      DocumentHistory.formatBytes (JsNumber.finite (1/2)) = "512 undefined" := by
  have hlog : Int.log 1024 ((1 : ℚ)/2) = -1 := by
    rw [Int.log_of_right_le_one 1024 (by norm_num)]
    norm_num
    rw [Nat.clog_eq_one (by norm_num) (by norm_num)]
  have hidx : DocumentHistory.unitIndex (1/2) = -1 := by
    rw [DocumentHistory.unitIndex, hlog]
    norm_num [DocumentHistory.units]
  have hval : (1/2 : ℚ) / (1024 : ℚ) ^ (-1 : ℤ) = 512 := by
    rw [zpow_neg, zpow_one]
    norm_num
  refine ⟨hidx, ?_⟩
  simp only [DocumentHistory.formatBytes]
  rw [if_neg (by norm_num : ¬ ((1 : ℚ)/2 < 0)),
    if_neg (by norm_num : ¬ ((1 : ℚ)/2 = 0)), hidx, hval,
    if_neg (by norm_num : ¬ ((512 : ℚ) < 10 ∧ (0 : ℤ) < -1))]
  with_unfolding_all rfl

/-- C10, amended: `formatBytes` is total — `"-"` for non-finite or
negative inputs, `"0 B"` for zero — and for every input `b ≥ 1` the
computed unit index lies within the bounds of the `units` array (between
0 and 4), so the chosen unit is one of B/KB/MB/GB/TB; for positive
inputs below 1, however, the index is negative and the rendered unit is
`undefined`. -/
theorem formatBytes_spec (x : JsNumber) (b : ℚ) :
    (x = JsNumber.nan ∨ x = JsNumber.posInf ∨ x = JsNumber.negInf →
      DocumentHistory.formatBytes x = "-") ∧
    (b < 0 → DocumentHistory.formatBytes (JsNumber.finite b) = "-") ∧
    DocumentHistory.formatBytes (JsNumber.finite 0) = "0 B" ∧
    (1 ≤ b → 0 ≤ DocumentHistory.unitIndex b ∧ DocumentHistory.unitIndex b ≤ 4 ∧
      DocumentHistory.unitsAt (DocumentHistory.unitIndex b) ∈ DocumentHistory.units) := by
  refine ⟨?_, ?_, ?_, ?_⟩
  · rintro (rfl | rfl | rfl) <;> rfl
  · intro hb
    simp only [DocumentHistory.formatBytes]
    rw [if_pos hb]
  · simp only [DocumentHistory.formatBytes]
    rw [if_neg (by norm_num : ¬ ((0 : ℚ) < 0))]
    simp
  · intro hb
    have h0 : 0 ≤ DocumentHistory.unitIndex b := by
      rw [DocumentHistory.unitIndex]
      refine le_min ?_ (by norm_num [DocumentHistory.units])
      rw [Int.log_of_one_le_right 1024 hb]
      exact Int.natCast_nonneg _
    have h4 : DocumentHistory.unitIndex b ≤ 4 := by
      rw [DocumentHistory.unitIndex]
      exact le_trans (min_le_right _ _) (by norm_num [DocumentHistory.units])
    refine ⟨h0, h4, ?_⟩
    set i := DocumentHistory.unitIndex b with hi
    interval_cases i <;> decide

/-- C10 witness: the amended theorem applied at `b = 2048`: the index is
within bounds and the unit is one of the five listed. -/
theorem formatBytes_spec_witness :
    0 ≤ DocumentHistory.unitIndex 2048 ∧ DocumentHistory.unitIndex 2048 ≤ 4 ∧
      DocumentHistory.unitsAt (DocumentHistory.unitIndex 2048) ∈
        DocumentHistory.units :=
  (formatBytes_spec JsNumber.nan 2048).2.2.2 (by norm_num)

/-! ### C6 — atomicity of document deletion -/

/-- Removing a document's mapping really clears it (provided the stored
value was not the corrupt empty string, which the module never writes). -/
theorem getJobIdForDocument_remove_self (storage : DocumentJobs.StoredRaw)
    {documentId : String} (hd : documentId ≠ "")
    (hne : DocumentJobs.getJobIdForDocument documentId storage ≠ some "") :
    DocumentJobs.getJobIdForDocument documentId
      (DocumentJobs.removeJobIdForDocument documentId storage) = none := by
  rw [DocumentJobs.removeJobIdForDocument, if_neg hd]
  rcases hv : DocumentJobs.objGet (DocumentJobs.readMap storage) documentId
    with _ | v
  · dsimp only
    rw [DocumentJobs.getJobIdForDocument]
    exact hv
  · have hvne : v ≠ "" := fun h =>
      hne (by rw [DocumentJobs.getJobIdForDocument, hv, h])
    dsimp only
    rw [if_pos hvne, DocumentJobs.getJobIdForDocument,
      DocumentJobs.readMap_writeMap, DocumentJobs.objGet_objDelete_self]

/-- C6: document deletion is atomic with respect to the outcome of
`apiDeleteDocument`: on success the document disappears from the
displayed list and its job mapping is removed from local storage
(assuming the mapping did not hold the corrupt empty-string value, which
the module never writes); on rejection both the list and the stored
mapping are unchanged. -/
theorem handleDelete_atomic (doc : DocumentHistory.DocumentItem)
    (token : Option String) (t : String) (confirmed : Bool)
    (res : ApiResult Unit) (s : DocumentHistory.HistoryState)
    (hid : doc._id ≠ "") :
    (token = some t → t ≠ "" → confirmed = true →
      ∀ u, res = ApiResult.success u →
        (∀ d ∈ (DocumentHistory.handleDelete doc token confirmed res s).documents,
            d._id ≠ doc._id) ∧
        (DocumentJobs.getJobIdForDocument doc._id s.storage ≠ some "" →
          DocumentJobs.getJobIdForDocument doc._id
            (DocumentHistory.handleDelete doc token confirmed res s).storage =
              none)) ∧
    (∀ m, res = ApiResult.failure m →
      (DocumentHistory.handleDelete doc token confirmed res s).documents =
          s.documents ∧
      (DocumentHistory.handleDelete doc token confirmed res s).storage =
          s.storage) := by
  constructor
  · rintro rfl ht rfl u rfl
    have hred : DocumentHistory.handleDelete doc (some t) true
        (ApiResult.success u) s =
        { documents := s.documents.filter (fun d => d._id ≠ doc._id),
          deletingId := none,
          storage := DocumentJobs.removeJobIdForDocument doc._id s.storage } := by
      simp only [DocumentHistory.handleDelete]
      rw [if_neg ht, if_neg (by decide : ¬ (true = false))]
    constructor
    · intro d hdmem
      rw [hred] at hdmem
      have := (List.mem_filter.mp hdmem).2
      simpa using this
    · intro hne
      rw [hred]
      exact getJobIdForDocument_remove_self s.storage hid hne
  · rintro m rfl
    rcases token with _ | t2
    · exact ⟨rfl, rfl⟩
    · by_cases ht2 : t2 = ""
      · simp only [DocumentHistory.handleDelete]
        rw [if_pos ht2]
        exact ⟨rfl, rfl⟩
      · by_cases hc : confirmed = false
        · simp only [DocumentHistory.handleDelete]
          rw [if_neg ht2, if_pos hc]
          exact ⟨rfl, rfl⟩
        · simp only [DocumentHistory.handleDelete]
          rw [if_neg ht2, if_neg hc]
          exact ⟨rfl, rfl⟩

/-- C6 witness: the atomicity theorem applied to a concrete state — after
a successful delete of document `d1`, its job mapping reads back as
`null`. -/
theorem handleDelete_atomic_witness :
    DocumentJobs.getJobIdForDocument "d1"
      (DocumentHistory.handleDelete
        ⟨"d1", "a.pdf", "/files/a.pdf", JsNumber.finite 1000,
          some "application/pdf", "u1", "2024-01-01T00:00:00Z", none⟩
        (some "tok") true (ApiResult.success ())
        { documents := [], deletingId := none,
          storage := DocumentJobs.writeMap [("d1", "j1")] }).storage = none :=
  ((handleDelete_atomic
      ⟨"d1", "a.pdf", "/files/a.pdf", JsNumber.finite 1000,
        some "application/pdf", "u1", "2024-01-01T00:00:00Z", none⟩
      (some "tok") "tok" true (ApiResult.success ())
      { documents := [], deletingId := none,
        storage := DocumentJobs.writeMap [("d1", "j1")] }
      (by decide)).1 rfl (by decide) rfl () rfl).2 (by decide)

/-! ## `lib/authStore.ts` — the zustand auth store -/

namespace AuthStore

/-- `UserMe` from `lib/types.ts`. -/
structure UserMe where
  username : String
  full_name : Option String
  role : String
deriving DecidableEq

/-- `AuthTokenResponse` from `lib/types.ts`. -/
structure AuthTokenResponse where
  access_token : String
  token_type : String
deriving DecidableEq

/-- The data held by the store (the function fields of `AuthState` are
modelled as the operations below). -/
structure AuthState where
  token : Option String
  user : Option UserMe
  isLoading : Bool
  error : Option String
deriving DecidableEq

/-- `e?.message || fallback` on a rejected call. -/
def errorText (msg fallback : String) : String :=
  if msg = "" then fallback else msg

/-- Each operation is modelled as the list of states the store goes
through, one entry per zustand `set` call (a `set` merges a partial
update into the current state); an empty list means the operation
returned without calling `set`.  `hydrate`: read the persisted token and
`if (token) set({ token })`. -/
def hydrate (ls : Option String) (s : AuthState) : List AuthState :=
  match ls with
  | some t => if t ≠ "" then [{ s with token := some t }] else []
  | none => []

/-- `register`: set loading, call `apiRegister`, then `apiLogin`, store
the token, call `apiMe`, store the user; any rejection lands in the
`catch` (set the error, rethrow) and the `finally` clears loading. -/
def register (regRes : ApiResult UserMe)
    (loginRes : ApiResult AuthTokenResponse) (meRes : ApiResult UserMe)
    (s : AuthState) : List AuthState :=
  let s1 : AuthState := { s with isLoading := true, error := none }
  match regRes with
  | .failure m =>
      let s2 := { s1 with error := some (errorText m "Registration failed") }
      [s1, s2, { s2 with isLoading := false }]
  | .success _ =>
    match loginRes with
    | .failure m =>
        let s2 := { s1 with error := some (errorText m "Registration failed") }
        [s1, s2, { s2 with isLoading := false }]
    | .success tokenRes =>
      let s2 := { s1 with token := some tokenRes.access_token }
      match meRes with
      | .failure m =>
          let s3 := { s2 with error := some (errorText m "Registration failed") }
          [s1, s2, s3, { s3 with isLoading := false }]
      | .success me =>
          let s3 := { s2 with user := some me }
          [s1, s2, s3, { s3 with isLoading := false }]

/-- `login`: like `register` without the initial `apiRegister` call. -/
def login (loginRes : ApiResult AuthTokenResponse) (meRes : ApiResult UserMe)
    (s : AuthState) : List AuthState :=
  let s1 : AuthState := { s with isLoading := true, error := none }
  match loginRes with
  | .failure m =>
      let s2 := { s1 with error := some (errorText m "Login failed") }
      [s1, s2, { s2 with isLoading := false }]
  | .success tokenRes =>
    let s2 := { s1 with token := some tokenRes.access_token }
    match meRes with
    | .failure m =>
        let s3 := { s2 with error := some (errorText m "Login failed") }
        [s1, s2, s3, { s3 with isLoading := false }]
    | .success me =>
        let s3 := { s2 with user := some me }
        [s1, s2, s3, { s3 with isLoading := false }]

/-- `refreshMe`: `get().token || localStorage.getItem(TOKEN_KEY)`; bail
out on a falsy token; on success set both user and token, on failure
clear both. -/
def refreshMe (ls : Option String) (meRes : ApiResult UserMe)
    (s : AuthState) : List AuthState :=
  let tokenOpt : Option String :=
    match s.token with
    | some t => if t ≠ "" then some t else ls
    | none => ls
  match tokenOpt with
  | none => []
  | some t =>
    if t = "" then []
    else
      let s1 : AuthState := { s with isLoading := true }
      match meRes with
      | .success me =>
          let s2 := { s1 with user := some me, token := some t }
          [s1, s2, { s2 with isLoading := false }]
      | .failure _ =>
          let s2 := { s1 with token := none, user := none }
          [s1, s2, { s2 with isLoading := false }]

/-- `logout`: clear token and user. -/
def logout (s : AuthState) : List AuthState :=
  [{ s with token := none, user := none }]

/-- The invariant of C8: a non-null `user` implies a non-null `token`. -/
def tokenInv (s : AuthState) : Prop :=
  s.user.isSome = true → s.token.isSome = true

end AuthStore

/-! ### C8 — the user-implies-token invariant -/

/-- C8: every operation of the auth store preserves the invariant that a
non-null `user` implies a non-null `token`, at every intermediate `set`
of every execution path (all API outcomes). -/
theorem auth_user_implies_token (s : AuthStore.AuthState) (ls : Option String)
    (regRes : ApiResult AuthStore.UserMe)
    (loginRes : ApiResult AuthStore.AuthTokenResponse)
    (meRes meRes2 : ApiResult AuthStore.UserMe)
    (hs : AuthStore.tokenInv s) :
    (∀ s' ∈ AuthStore.hydrate ls s, AuthStore.tokenInv s') ∧
    (∀ s' ∈ AuthStore.register regRes loginRes meRes s, AuthStore.tokenInv s') ∧
    (∀ s' ∈ AuthStore.login loginRes meRes s, AuthStore.tokenInv s') ∧
    (∀ s' ∈ AuthStore.refreshMe ls meRes2 s, AuthStore.tokenInv s') ∧
    (∀ s' ∈ AuthStore.logout s, AuthStore.tokenInv s') := by
  refine ⟨?_, ?_, ?_, ?_, ?_⟩
  · intro s' hmem
    rcases ls with _ | t
    · simp [AuthStore.hydrate] at hmem
    · by_cases ht : t ≠ ""
      · rw [AuthStore.hydrate, if_pos ht] at hmem
        simp only [List.mem_singleton] at hmem
        subst hmem
        intro _
        rfl
      · rw [AuthStore.hydrate, if_neg ht] at hmem
        simp at hmem
  · intro s' hmem
    rcases regRes with u | m
    · rcases loginRes with tokenRes | m
      · rcases meRes with me | m
        · simp only [AuthStore.register, List.mem_cons, List.mem_singleton,
            List.not_mem_nil, or_false] at hmem
          rcases hmem with rfl | rfl | rfl | rfl
          · exact hs
          · intro _; rfl
          · intro _; rfl
          · intro _; rfl
        · simp only [AuthStore.register, List.mem_cons, List.mem_singleton,
            List.not_mem_nil, or_false] at hmem
          rcases hmem with rfl | rfl | rfl | rfl
          · exact hs
          · intro _; rfl
          · intro _; rfl
          · intro _; rfl
      · simp only [AuthStore.register, List.mem_cons, List.mem_singleton,
          List.not_mem_nil, or_false] at hmem
        rcases hmem with rfl | rfl | rfl
        · exact hs
        · exact hs
        · exact hs
    · simp only [AuthStore.register, List.mem_cons, List.mem_singleton,
        List.not_mem_nil, or_false] at hmem
      rcases hmem with rfl | rfl | rfl
      · exact hs
      · exact hs
      · exact hs
  · intro s' hmem
    rcases loginRes with tokenRes | m
    · rcases meRes with me | m
      · simp only [AuthStore.login, List.mem_cons, List.mem_singleton,
          List.not_mem_nil, or_false] at hmem
        rcases hmem with rfl | rfl | rfl | rfl
        · exact hs
        · intro _; rfl
        · intro _; rfl
        · intro _; rfl
      · simp only [AuthStore.login, List.mem_cons, List.mem_singleton,
          List.not_mem_nil, or_false] at hmem
        rcases hmem with rfl | rfl | rfl | rfl
        · exact hs
        · intro _; rfl
        · intro _; rfl
        · intro _; rfl
    · simp only [AuthStore.login, List.mem_cons, List.mem_singleton,
        List.not_mem_nil, or_false] at hmem
      rcases hmem with rfl | rfl | rfl
      · exact hs
      · exact hs
      · exact hs
  · intro s' hmem
    rw [AuthStore.refreshMe] at hmem
    rcases htok : (match s.token with
      | some t => if t ≠ "" then some t else ls
      | none => ls) with _ | t
    · rw [htok] at hmem
      simp at hmem
    · rw [htok] at hmem
      dsimp only at hmem
      by_cases ht : t = ""
      · rw [if_pos ht] at hmem
        simp at hmem
      · rw [if_neg ht] at hmem
        rcases meRes2 with me | m
        · simp only [List.mem_cons, List.mem_singleton, List.not_mem_nil,
            or_false] at hmem
          rcases hmem with rfl | rfl | rfl
          · exact hs
          · intro _; rfl
          · intro _; rfl
        · simp only [List.mem_cons, List.mem_singleton, List.not_mem_nil,
            or_false] at hmem
          rcases hmem with rfl | rfl | rfl
          · exact hs
          · intro h; simp at h
          · intro h; simp at h
  · intro s' hmem
    simp only [AuthStore.logout, List.mem_singleton] at hmem
    subst hmem
    intro h
    simp at h

/-- C8 witness: the invariant theorem applied to a successful `register`
from the empty initial state — the final state (token and user both set)
satisfies the invariant. -/
theorem auth_user_implies_token_witness :
    AuthStore.tokenInv
      { token := some "tok", user := some ⟨"alice", none, "viewer"⟩,
        isLoading := false, error := none } :=
  ((auth_user_implies_token
      { token := none, user := none, isLoading := false, error := none }
      none (ApiResult.success ⟨"alice", none, "viewer"⟩)
      (ApiResult.success ⟨"tok", "bearer"⟩)
      (ApiResult.success ⟨"alice", none, "viewer"⟩)
      (ApiResult.success ⟨"alice", none, "viewer"⟩)
      (fun h => h)).2.1
    { token := some "tok", user := some ⟨"alice", none, "viewer"⟩,
      isLoading := false, error := none }
    (by decide))
